import Mathlib

/-!
Verification development for the devicely repository (Empatica E4 and
Spacelabs SL 90217 readers).  The definitions below are a shallow embedding
of src/devicely/spacelabs.py and src/devicely/empatica.py: pandas
timestamps and timedeltas are modelled as integers (nanoseconds), pandas
dataframes as lists of rows, and Python dictionaries as association lists.
-/

namespace Devicely

/-! ## Spacelabs embedding (src/devicely/spacelabs.py) -/

/-- Error code of an ambulatory row (the `error` column); the source stores
the strings EB / AB or NaN, modelled as an inductive to keep values closed. -/
inductive ErrCode where
  | EB
  | AB
deriving DecidableEq, Repr

/-- Nanoseconds per minute, the granularity pandas `round (min)` targets. -/
def nsPerMin : Int := 60000000000

/-- Nanoseconds per day; used to recompute the `date` and `time` columns
from a shifted timestamp, as `timestamp.date()` / `timestamp.time()` do. -/
def nsPerDay : Int := 86400000000000

/-- pandas `Timedelta.round` / `Timestamp.round`: round to the nearest
multiple of `M`, ties to the even multiple (pandas RoundTo.NEAREST_HALF_EVEN). -/
def roundHalfEvenTo (M t : Int) : Int :=
  let r := t % M
  let base := t - r
  if 2 * r < M then base
  else if M < 2 * r then base + M
  else if (base / M) % 2 = 0 then base else base + M

/-- `x.round (min)` on a pandas Timedelta/Timestamp measured in nanoseconds. -/
def roundMin (t : Int) : Int := roundHalfEvenTo nsPerMin t

/-- One row of `SpacelabsReader.data`: absolute timestamp (ns), derived
`date` (days) and `time` (ns within the day) columns, and the error code. -/
structure SLRow where
  timestamp : Int
  date : Int
  time : Int
  error : Option ErrCode
deriving DecidableEq, Repr

/-- A value held by a `window_start` / `window_end` cell: assigning the
positional RangeIndex into a column yields plain integers, while arithmetic
on a timestamp index yields timestamps. -/
inductive WinVal where
  | pos (n : Int)
  | instant (t : Int)
deriving DecidableEq, Repr

/-- The `SpacelabsReader.data` dataframe.  `tsIndexed` records whether
`set_index (timestamp)` has run (`drop_EB`): before that the index is the
positional RangeIndex, afterwards it is the timestamp column. -/
structure SLState where
  tsIndexed : Bool
  rows : List SLRow
  window_start : Option (List WinVal)
  window_end : Option (List WinVal)
deriving DecidableEq, Repr

/-- The timestamps of the data rows, in row order. -/
def SLState.timestamps (st : SLState) : List Int := st.rows.map SLRow.timestamp

/-- The TypeError pandas raises when Timedelta arithmetic hits an integer
index: one constructor per failing operation. -/
inductive PdError where
  | cannotSubtract
  | cannotAdd
deriving DecidableEq, Repr

/-- `self.data.index - d`: elementwise subtraction succeeds on a timestamp
index and raises a TypeError on the positional integer index. -/
def idxSubTd (st : SLState) (d : Int) : Except PdError (List WinVal) :=
  if st.tsIndexed then
    Except.ok (st.timestamps.map (fun t => WinVal.instant (t - d)))
  else
    Except.error PdError.cannotSubtract

/-- `self.data.index + d`: elementwise addition, same typing rule. -/
def idxAddTd (st : SLState) (d : Int) : Except PdError (List WinVal) :=
  if st.tsIndexed then
    Except.ok (st.timestamps.map (fun t => WinVal.instant (t + d)))
  else
    Except.error PdError.cannotAdd

/-- `self.data [col] = self.data.index`: copying the index into a column
always succeeds; a RangeIndex yields positional integers, a timestamp index
yields the timestamps. -/
def idxAsCol (st : SLState) : List WinVal :=
  if st.tsIndexed then st.timestamps.map WinVal.instant
  else (List.range st.rows.length).map (fun n => WinVal.pos (Int.ofNat n))

def bffill : String := "bffill"
def bfill : String := "bfill"
def ffill : String := "ffill"

/-- `SpacelabsReader.set_window`, executed statement by statement the way
Python does: each column assignment mutates the state before the next
expression is evaluated, and the first TypeError aborts the rest of the
body.  Returns the (possibly partially mutated) state together with the
escaped exception, if any.  An unrecognised `window_type` matches no branch
of the if/elif chain and the call returns silently. -/
def set_window (window_duration : Int) (window_type : String) (st : SLState) :
    SLState × Option PdError :=
  if window_type = bffill then
    match idxSubTd st (window_duration / 2) with
    | Except.error e => (st, some e)
    | Except.ok c1 =>
      let st1 := { st with window_start := some c1 }
      match idxAddTd st1 (window_duration / 2) with
      | Except.error e => (st1, some e)
      | Except.ok c2 => ({ st1 with window_end := some c2 }, none)
  else if window_type = bfill then
    match idxSubTd st window_duration with
    | Except.error e => (st, some e)
    | Except.ok c1 =>
      let st1 := { st with window_start := some c1 }
      ({ st1 with window_end := some (idxAsCol st1) }, none)
  else if window_type = ffill then
    let st1 := { st with window_start := some (idxAsCol st) }
    match idxAddTd st1 window_duration with
    | Except.error e => (st1, some e)
    | Except.ok c2 => ({ st1 with window_end := some c2 }, none)
  else
    (st, none)

/-- `SpacelabsReader.drop_EB`: keep the rows whose error code is not EB and
re-key by the timestamp column.  pandas `set_index` is called with its
default `verify_integrity = False`, so the operation is total: duplicate
timestamps are neither detected nor removed. -/
def drop_EB (st : SLState) : SLState :=
  { st with
    rows := st.rows.filter (fun r => r.error ≠ some ErrCode.EB),
    tsIndexed := true }

/-- Shift one row by `d` nanoseconds and recompute its `date` and `time`
columns from the new timestamp, as the tail of `timeshift` does. -/
def shiftRow (d : Int) (r : SLRow) : SLRow :=
  let t := r.timestamp + d
  { timestamp := t, date := t / nsPerDay, time := t % nsPerDay,
    error := r.error }

/-- `SpacelabsReader.timeshift` with a Timedelta argument: the shift is
rounded to whole minutes inside this call (`shift.round (min)`) and added
to every timestamp; the `date` and `time` columns are then recomputed. -/
def sl_timeshift_td (d : Int) (st : SLState) : SLState :=
  { st with rows := st.rows.map (shiftRow (roundMin d)) }

/-- `SpacelabsReader.timeshift` with a Timestamp argument: anchor the first
timestamp at the target rounded to whole minutes, translating all rows by
the same delta, then recompute `date` and `time`. -/
def sl_timeshift_ts (A : Int) (st : SLState) : SLState :=
  let t0 := st.timestamps.headD 0
  { st with rows := st.rows.map (fun r => shiftRow (roundMin A - t0) r) }

/-- The date-adjustment loop of `SpacelabsReader.__init__`, after the first
row: carries the running date and the previous time of day, bumping the
date by one day exactly when the time of day decreases.  Times of day are
minutes since midnight (the file holds hour and minute only). -/
def adjustDatesAux (current : Int) (prev : Nat) : List Nat → List Int
  | [] => []
  | t :: ts =>
    let cur := if prev > t then current + 1 else current
    cur :: adjustDatesAux cur t ts

/-- The whole date-adjustment pass: row 0 gets the base date, later rows
follow the scan above. -/
def adjustDates (base : Int) : List Nat → List Int
  | [] => []
  | t :: ts => base :: adjustDatesAux base t ts

/-! ## Empatica embedding (src/devicely/empatica.py) -/

/-- Name of an Empatica signal, the keys of the `start_times` and
`sample_freqs` dictionaries and of the joined dataframe's columns. -/
inductive SigName where
  | ACC
  | BVP
  | EDA
  | HR
  | TEMP
  | IBI
deriving DecidableEq, Repr

/-- One time-indexed signal dataframe: rows of (timestamp in ns, field
values).  ACC carries three fields per row, the other signals one; the IBI
dataframe carries the interbeat interval value. -/
structure Signal where
  rows : List (Int × List Int)
deriving DecidableEq, Repr

/-- The index of a signal dataframe: its timestamps in row order. -/
def Signal.index (s : Signal) : List Int := s.rows.map Prod.fst

/-- `min` of a nonempty list of timestamps (`dataframe.index.min ()`,
`min (start_times.values ())`); junk value 0 on the empty list, which the
source would refuse anyway. -/
def listMin : List Int → Int
  | [] => 0
  | x :: xs => xs.foldl min x

/-- All timestamps contributed by a list of signals, concatenated
(`pd.concat` of the individual indexes). -/
def allTimestamps (ss : List Signal) : List Int :=
  (ss.map Signal.index).flatten

/-- `drop_duplicates` followed by `sort_values` on the concatenated index:
the sorted list of the distinct timestamps. -/
def dedupSort (l : List Int) : List Int :=
  List.insertionSort (fun a b => a ≤ b) l.dedup

/-- A cell of one joined-dataframe column, positionally aligned with the
joined index: `some v` where the owning signal had a sample, NaN (`none`)
elsewhere. -/
def updCol (idx : List Int) (col : List (Option (List Int))) (t : Int)
    (v : List Int) : List (Option (List Int)) :=
  List.zipWith (fun ti c => if ti = t then some v else c) idx col

/-- `joined_dataframe.loc [signal.index, col] = signal`: starting from an
all-NaN column over the joined index, scatter each row's value into the
position labelled by that row's timestamp. -/
def scatterCol (idx : List Int) (s : Signal) : List (Option (List Int)) :=
  s.rows.foldl (fun col r => updCol idx col r.1 r.2) (idx.map (fun _ => none))

/-- The value a scatter leaves at an index label `x`: the value of the last
row whose timestamp equals `x`, if any — the functional reading of the
label-addressed assignments performed by `scatterCol`. -/
def lastMatch (rows : List (Int × List Int)) (x : Int) : Option (List Int) :=
  rows.foldl (fun acc q => if x = q.1 then some q.2 else acc) none

/-- The joined dataframe: the shared sorted index plus one scattered column
(vector-valued for ACC) per contributing signal. -/
structure Joined where
  idx : List Int
  cols : List (SigName × List (Option (List Int)))
deriving DecidableEq, Repr

/-- The state of an `EmpaticaReader`: per-signal start instants, the
optional tag instants, the six optional signal dataframes and the optional
joined dataframe.  Absent files leave `none`, as in the source. -/
structure EmpaticaReader where
  start_times : List (SigName × Int)
  tags : Option (List Int)
  ACC : Option Signal
  BVP : Option Signal
  EDA : Option Signal
  HR : Option Signal
  TEMP : Option Signal
  IBI : Option Signal
  data : Option Joined
deriving DecidableEq, Repr

/-- The non-absent signals among ACC, BVP, EDA, HR, TEMP, in that order:
the `dataframes` list of `_get_joined_dataframe` (IBI and tags excluded). -/
def contributing (r : EmpaticaReader) : List (SigName × Signal) :=
  ([(SigName.ACC, r.ACC), (SigName.BVP, r.BVP), (SigName.EDA, r.EDA),
    (SigName.HR, r.HR), (SigName.TEMP, r.TEMP)]).filterMap
    (fun p => p.2.map (fun s => (p.1, s)))

/-- `EmpaticaReader._get_joined_dataframe`: `None` when no signal is
present, otherwise the table over the sorted de-duplicated union of the
contributing indexes with each signal scattered into its own column. -/
def get_joined (r : EmpaticaReader) : Option Joined :=
  let ds := contributing r
  if ds = [] then none
  else
    let idx := dedupSort (allTimestamps (ds.map Prod.snd))
    some { idx := idx, cols := ds.map (fun p => (p.1, scatterCol idx p.2)) }

/-- Translate a signal dataframe's index by `d` (`dataframe.index += d`). -/
def Signal.shift (d : Int) (s : Signal) : Signal :=
  ⟨s.rows.map (fun r => (r.1 + d, r.2))⟩

/-- Translate the joined dataframe's index by `d`. -/
def Joined.shiftIdx (d : Int) (j : Joined) : Joined :=
  { j with idx := j.idx.map (fun t => t + d) }

/-- `EmpaticaReader.timeshift` with a Timedelta argument: add the shift to
every start time, every tag instant and the index of every dataframe in the
`variables` list (ACC, BVP, EDA, HR, TEMP, data).  The IBI dataframe is not
in that list and is left untouched, though its start time is shifted. -/
def emp_timeshift_td (d : Int) (r : EmpaticaReader) : EmpaticaReader :=
  { r with
    start_times := r.start_times.map (fun p => (p.1, p.2 + d)),
    tags := r.tags.map (fun tg => tg.map (fun t => t + d)),
    ACC := r.ACC.map (Signal.shift d),
    BVP := r.BVP.map (Signal.shift d),
    EDA := r.EDA.map (Signal.shift d),
    HR := r.HR.map (Signal.shift d),
    TEMP := r.TEMP.map (Signal.shift d),
    data := r.data.map (Joined.shiftIdx d) }

/-- Re-anchor a list of instants at target `A` using the list's own
minimum: `A + (t - min)` for each entry `t`. -/
def anchorIdx (A : Int) (idx : List Int) : List Int :=
  idx.map (fun t => A + (t - listMin idx))

/-- Re-anchor one signal dataframe at `A` using its own index minimum
(`timedeltas = dataframe.index - dataframe.index.min ()`). -/
def Signal.anchor (A : Int) (s : Signal) : Signal :=
  ⟨s.rows.map (fun r => (A + (r.1 - listMin s.index), r.2))⟩

/-- Re-anchor the joined dataframe's index at `A` using its own minimum. -/
def Joined.anchorIdx (A : Int) (j : Joined) : Joined :=
  { j with idx := Devicely.anchorIdx A j.idx }

/-- `EmpaticaReader.timeshift` with a Timestamp argument: the start-time
dictionary is re-anchored at `A` using the minimum start time, the tag
series using its own minimum, and each dataframe in the `variables` list
using its own index minimum.  IBI is again untouched. -/
def emp_timeshift_ts (A : Int) (r : EmpaticaReader) : EmpaticaReader :=
  let m := listMin (r.start_times.map Prod.snd)
  { r with
    start_times := r.start_times.map (fun p => (p.1, A + (p.2 - m))),
    tags := r.tags.map (fun tg => tg.map (fun t => A + (t - listMin tg))),
    ACC := r.ACC.map (Signal.anchor A),
    BVP := r.BVP.map (Signal.anchor A),
    EDA := r.EDA.map (Signal.anchor A),
    HR := r.HR.map (Signal.anchor A),
    TEMP := r.TEMP.map (Signal.anchor A),
    data := r.data.map (Joined.anchorIdx A) }

/-! ## Spacelabs metadata and de-identification -/

/-- A key of the nested XML metadata dictionary. -/
inductive MKey where
  | PATIENTINFO
  | REPORTINFO
  | DOB
  | RACE
  | PHYSICIAN
  | NURSETECH
  | STATUS
  | CALIPERSUMMARY
  | COUNT
deriving DecidableEq, Repr

/-- A value of the metadata dictionary: text, number, `None`, or a nested
dictionary. -/
inductive MetaVal where
  | str (s : String)
  | int (n : Int)
  | null
  | dict (entries : List (MKey × MetaVal))

/-- The identity-related state of a `SpacelabsReader`: the subject id and
the nested metadata dictionary. -/
structure SLIdentity where
  subject : String
  metadata : List (MKey × MetaVal)

def placeholderSubject : String := "xxxxxx"

/-- `SpacelabsReader.deidentify`: replace the subject id by the argument
when it is truthy (Python `if subject_id:`), otherwise by the fixed
placeholder, and set every top-level value of the metadata dictionary to
`None`. -/
def deidentify (subject_id : Option String) (st : SLIdentity) : SLIdentity :=
  let subject :=
    match subject_id with
    | some s => if s = "" then placeholderSubject else s
    | none => placeholderSubject
  { subject := subject,
    metadata := st.metadata.map (fun p => (p.1, MetaVal.null)) }

/-- Whether a path of keys is present in a nested metadata dictionary:
`[PATIENTINFO, DOB]` holds exactly when the top level maps PATIENTINFO to a
nested dictionary containing DOB, and so on. -/
def hasPath : List MKey → List (MKey × MetaVal) → Bool
  | [], _ => true
  | k :: ks, entries =>
    match entries.find? (fun p => p.1 = k) with
    | none => false
    | some p =>
      match ks, p.2 with
      | [], _ => true
      | _ :: _, MetaVal.dict inner => hasPath ks inner
      | _ :: _, _ => false

def unknownPolicy : String := "foo"

/-- A two-sample ACC-like signal used as a concrete join input. -/
def sigAccExample : Signal := ⟨[(0, [1, 2, 3]), (2, [4, 5, 6])]⟩

/-- A one-sample BVP-like signal used as a concrete join input. -/
def sigBvpExample : Signal := ⟨[(1, [7])]⟩

/-- A reader holding just the two example signals. -/
def readerExample : EmpaticaReader :=
  ⟨[], none, some sigAccExample, some sigBvpExample, none, none, none,
   none, none⟩

/-- The joined dataframe of `readerExample`, written out literally. -/
def joinedExample : Joined :=
  ⟨[0, 1, 2],
   [(SigName.ACC, [some [1, 2, 3], none, some [4, 5, 6]]),
    (SigName.BVP, [none, some [7], none])]⟩

def subjOrig : String := "107"

def subjNew : String := "anon01"

/-! ## Lemmas and claim theorems -/

theorem adjustDatesAux_length (ts : List Nat) :
    ∀ (current : Int) (prev : Nat),
      (adjustDatesAux current prev ts).length = ts.length := by
  induction ts with
  | nil => intro current prev; rfl
  | cons t ts ih =>
    intro current prev
    simp only [adjustDatesAux, List.length_cons, ih]

theorem adjustDatesAux_step (ts : List Nat) :
    ∀ (current : Int) (prev : Nat) (i : Nat) (a b : Int) (x y : Nat),
      (current :: adjustDatesAux current prev ts)[i]? = some a →
      (current :: adjustDatesAux current prev ts)[i + 1]? = some b →
      (prev :: ts)[i]? = some x → (prev :: ts)[i + 1]? = some y →
      b = a + (if y < x then 1 else 0) := by
  induction ts with
  | nil =>
    intro current prev i a b x y _ hb _ _
    simp [adjustDatesAux] at hb
  | cons t ts ih =>
    intro current prev i a b x y ha hb hx hy
    match i with
    | 0 =>
      simp only [List.getElem?_cons_zero, List.getElem?_cons_succ,
        Option.some.injEq] at ha hb hx hy
      simp only [adjustDatesAux, List.getElem?_cons_zero,
        Option.some.injEq] at hb
      subst ha hx hy hb
      by_cases h : t < prev <;> simp [gt_iff_lt, h]
    | i + 1 =>
      rw [List.getElem?_cons_succ] at ha hb hx hy
      simp only [adjustDatesAux] at ha hb
      exact ih _ t i a b x y ha hb hx hy

/-- C4: the ambulatory date reconstruction is a single left-to-right pass:
row 0 gets the base date; for every later row the date increments by
exactly one day iff the time of day strictly decreased, else stays equal;
and the time-of-day sequence 23:58, 23:59, 00:01, 00:05 with base date D
yields dates D, D, D+1, D+1. -/
theorem date_rollover_scan :
    (∀ (D : Int) (times : List Nat),
      (adjustDates D times).length = times.length) ∧
    (∀ (D : Int) (t : Nat) (ts : List Nat),
      (adjustDates D (t :: ts)).headD 0 = D) ∧
    (∀ (D : Int) (times : List Nat) (i : Nat) (a b : Int) (x y : Nat),
      (adjustDates D times)[i]? = some a →
      (adjustDates D times)[i + 1]? = some b →
      times[i]? = some x → times[i + 1]? = some y →
      b = a + (if y < x then 1 else 0)) ∧
    (∀ D : Int, adjustDates D [1438, 1439, 1, 5] = [D, D, D + 1, D + 1]) := by
  refine ⟨?_, ?_, ?_, ?_⟩
  · intro D times
    cases times with
    | nil => rfl
    | cons t ts => simp [adjustDates, adjustDatesAux_length]
  · intro D t ts
    rfl
  · intro D times i a b x y ha hb hx hy
    cases times with
    | nil => simp at hx
    | cons t ts =>
      exact adjustDatesAux_step ts D t i a b x y ha hb hx hy
  · intro D
    norm_num [adjustDates, adjustDatesAux]

/-- Witness for C4 at a concrete input: times 10 then 3 (a decrease), base
date 5, so row 1 gets date 6 = 5 + 1. -/
theorem date_rollover_scan_witness :
    (6 : Int) = 5 + (if (3 : Nat) < 10 then 1 else 0) :=
  date_rollover_scan.2.2.1 5 [10, 3] 0 5 6 10 3 (by decide) (by decide)
    (by decide) (by decide)

/-- C5 counterexample: two surviving rows share timestamp 100, yet
`drop_EB` returns the re-keyed table with the duplicate silently kept —
the surviving timestamps are not pairwise distinct and no error is
reported. -/
theorem drop_eb_duplicates_cex :
    (drop_EB ⟨false, [⟨100, 0, 100, none⟩, ⟨100, 0, 100, none⟩], none, none⟩).timestamps
      = [100, 100] ∧
    ¬ (drop_EB ⟨false, [⟨100, 0, 100, none⟩, ⟨100, 0, 100, none⟩], none, none⟩).timestamps.Nodup := by
  decide

/-- C5 amended: `drop_EB` removes exactly the EB rows and unconditionally
re-keys the survivors by timestamp; the surviving rows are exactly the
non-EB rows of the input and the new index lists their timestamps with
multiplicities intact (duplicates are neither rejected nor merged),
because `set_index` runs without an integrity check. -/
theorem drop_eb_rekeys_unchecked (st : SLState) :
    (drop_EB st).tsIndexed = true ∧
    (∀ r : SLRow, r ∈ (drop_EB st).rows ↔
      r ∈ st.rows ∧ r.error ≠ some ErrCode.EB) ∧
    (drop_EB st).timestamps = (drop_EB st).rows.map SLRow.timestamp ∧
    (drop_EB st).rows.length =
      (st.rows.filter (fun r => r.error ≠ some ErrCode.EB)).length := by
  refine ⟨rfl, ?_, rfl, rfl⟩
  intro r
  simp [drop_EB, List.mem_filter]

/-- Witness for C5 amended: a non-EB row survives `drop_EB` and the result
is timestamp-indexed. -/
theorem drop_eb_rekeys_unchecked_witness :
    (drop_EB ⟨false, [⟨1, 0, 1, some ErrCode.EB⟩, ⟨2, 0, 2, none⟩], none, none⟩).tsIndexed
      = true ∧
    (⟨2, 0, 2, none⟩ : SLRow) ∈
      (drop_EB ⟨false, [⟨1, 0, 1, some ErrCode.EB⟩, ⟨2, 0, 2, none⟩], none, none⟩).rows :=
  ⟨(drop_eb_rekeys_unchecked ⟨false, [⟨1, 0, 1, some ErrCode.EB⟩, ⟨2, 0, 2, none⟩], none, none⟩).1,
   ((drop_eb_rekeys_unchecked ⟨false, [⟨1, 0, 1, some ErrCode.EB⟩, ⟨2, 0, 2, none⟩], none, none⟩).2.1
      ⟨2, 0, 2, none⟩).mpr ⟨by decide, by decide⟩⟩

/-- C6 counterexample: an unrecognised window policy matches no branch of
the if/elif chain; the call returns with the record set unchanged and no
error is raised. -/
theorem unknown_policy_silent_cex :
    set_window 60000000000 unknownPolicy
        ⟨true, [⟨100, 0, 100, none⟩], none, none⟩ =
      (⟨true, [⟨100, 0, 100, none⟩], none, none⟩, none) := by
  decide

/-- C6 amended: a window policy other than bffill, bfill and ffill is
silently ignored: `set_window` leaves the record set unchanged, computes
no window columns, and surfaces no error. -/
theorem unknown_policy_noop (d : Int) (wt : String) (st : SLState)
    (h1 : wt ≠ bffill) (h2 : wt ≠ bfill) (h3 : wt ≠ ffill) :
    set_window d wt st = (st, none) := by
  simp [set_window, h1, h2, h3]

/-- Witness for C6 amended at a concrete unknown policy. -/
theorem unknown_policy_noop_witness :
    set_window 1 unknownPolicy ⟨false, [], none, none⟩ =
      (⟨false, [], none, none⟩, none) :=
  unknown_policy_noop 1 unknownPolicy ⟨false, [], none, none⟩
    (by decide) (by decide) (by decide)

/-- C3 counterexample: before `deidentify` the nested key DOB is reachable
under PATIENTINFO; afterwards the whole PATIENTINFO value is `None`, so the
nested key is gone — key presence is not preserved below the top level. -/
theorem deidentify_nested_keys_cex :
    (hasPath [MKey.PATIENTINFO, MKey.DOB]
      [(MKey.PATIENTINFO,
          MetaVal.dict [(MKey.DOB, MetaVal.int 1990), (MKey.RACE, MetaVal.int 1)]),
       (MKey.REPORTINFO,
          MetaVal.dict [(MKey.PHYSICIAN, MetaVal.int 7),
            (MKey.NURSETECH, MetaVal.int 8), (MKey.STATUS, MetaVal.int 9),
            (MKey.CALIPERSUMMARY, MetaVal.dict [(MKey.COUNT, MetaVal.int 0)])])]
      = true) ∧
    (hasPath [MKey.PATIENTINFO, MKey.DOB]
      (deidentify none
        ⟨subjOrig,
         [(MKey.PATIENTINFO,
             MetaVal.dict [(MKey.DOB, MetaVal.int 1990), (MKey.RACE, MetaVal.int 1)]),
          (MKey.REPORTINFO,
             MetaVal.dict [(MKey.PHYSICIAN, MetaVal.int 7),
               (MKey.NURSETECH, MetaVal.int 8), (MKey.STATUS, MetaVal.int 9),
               (MKey.CALIPERSUMMARY, MetaVal.dict [(MKey.COUNT, MetaVal.int 0)])])]⟩).metadata
      = false) := by
  exact ⟨rfl, rfl⟩

/-- C3 amended: `deidentify` replaces the subject id by the caller-supplied
value when it is truthy and by the fixed placeholder otherwise, and sets
every top-level metadata value to `None`: the top-level keys survive, but
values — including entire nested mappings and their keys — are discarded. -/
theorem deidentify_top_level_null (o : Option String) (st : SLIdentity) :
    ((deidentify o st).metadata.map Prod.fst = st.metadata.map Prod.fst) ∧
    (∀ p : MKey × MetaVal, p ∈ (deidentify o st).metadata → p.2 = MetaVal.null) ∧
    ((deidentify o st).subject =
      match o with
      | some s => if s = "" then placeholderSubject else s
      | none => placeholderSubject) := by
  refine ⟨?_, ?_, rfl⟩
  · simp [deidentify]
  · intro p hp
    simp only [deidentify, List.mem_map] at hp
    obtain ⟨q, _, hq⟩ := hp
    exact hq ▸ rfl

/-- Witness for C3 amended: a one-entry metadata dictionary keeps its key
and the kept entry's value is `None`; a truthy subject id is taken over. -/
theorem deidentify_top_level_null_witness :
    ((deidentify (some subjNew)
        ⟨subjOrig, [(MKey.PATIENTINFO, MetaVal.int 3)]⟩).metadata.map Prod.fst
      = [MKey.PATIENTINFO]) ∧
    (MKey.PATIENTINFO, MetaVal.null).2 = MetaVal.null ∧
    (deidentify (some subjNew)
        ⟨subjOrig, [(MKey.PATIENTINFO, MetaVal.int 3)]⟩).subject = subjNew :=
  ⟨(deidentify_top_level_null (some subjNew)
      ⟨subjOrig, [(MKey.PATIENTINFO, MetaVal.int 3)]⟩).1,
   (deidentify_top_level_null (some subjNew)
      ⟨subjOrig, [(MKey.PATIENTINFO, MetaVal.int 3)]⟩).2.1
     (MKey.PATIENTINFO, MetaVal.null) (List.mem_singleton.mpr rfl),
   ((deidentify_top_level_null (some subjNew)
      ⟨subjOrig, [(MKey.PATIENTINFO, MetaVal.int 3)]⟩).2.2).trans (by rfl)⟩

/-- C7 counterexample: with the one-nanosecond duration 1 (odd in the
underlying unit) at timestamp 0, the centered policy puts both window ends
at 0, so the window width is 0, not the requested duration 1. -/
theorem centered_window_odd_cex :
    ((set_window 1 bffill ⟨true, [⟨0, 0, 0, none⟩], none, none⟩).1.window_start
      = some [WinVal.instant 0]) ∧
    ((set_window 1 bffill ⟨true, [⟨0, 0, 0, none⟩], none, none⟩).1.window_end
      = some [WinVal.instant 0]) ∧
    ((0 : Int) - 0 ≠ 1) := by
  decide

/-- C7 amended: on a timestamp-indexed table the centered policy sets
window_start = t - d/2 and window_end = t + d/2 with d/2 the floor
division the code performs, so the width is 2 * (d / 2) — equal to d
exactly when d is an even number of nanoseconds — while the timestamp is
always the exact midpoint of the window. -/
theorem centered_window_floor (d : Int) (st : SLState)
    (h : st.tsIndexed = true) :
    (set_window d bffill st).2 = none ∧
    (set_window d bffill st).1.window_start =
      some (st.timestamps.map (fun t => WinVal.instant (t - d / 2))) ∧
    (set_window d bffill st).1.window_end =
      some (st.timestamps.map (fun t => WinVal.instant (t + d / 2))) ∧
    (∀ t : Int, (t + d / 2) - (t - d / 2) = 2 * (d / 2)) ∧
    (∀ t : Int, (t - d / 2) + (t + d / 2) = 2 * t) ∧
    (2 ∣ d → 2 * (d / 2) = d) := by
  refine ⟨?_, ?_, ?_, ?_, ?_, ?_⟩
  · simp [set_window, idxSubTd, idxAddTd, SLState.timestamps, h]
  · simp [set_window, idxSubTd, idxAddTd, SLState.timestamps, h]
  · simp [set_window, idxSubTd, idxAddTd, SLState.timestamps, h]
  · intro t; omega
  · intro t; omega
  · intro hd; omega

/-- Witness for C7 amended at duration one minute on a one-row table. -/
theorem centered_window_floor_witness :
    ((set_window 60000000000 bffill ⟨true, [⟨100, 0, 100, none⟩], none, none⟩).2
      = none) ∧
    ((set_window 60000000000 bffill ⟨true, [⟨100, 0, 100, none⟩], none, none⟩).1.window_start
      = some ((SLState.timestamps ⟨true, [⟨100, 0, 100, none⟩], none, none⟩).map
          (fun t => WinVal.instant (t - (60000000000 : Int) / 2)))) ∧
    (2 ∣ (60000000000 : Int) → 2 * ((60000000000 : Int) / 2) = 60000000000) :=
  ⟨(centered_window_floor 60000000000 ⟨true, [⟨100, 0, 100, none⟩], none, none⟩ rfl).1,
   (centered_window_floor 60000000000 ⟨true, [⟨100, 0, 100, none⟩], none, none⟩ rfl).2.1,
   (centered_window_floor 60000000000 ⟨true, [⟨100, 0, 100, none⟩], none, none⟩ rfl).2.2.2.2.2⟩

/-- C10 counterexample: on a freshly parsed record set the leading
(ffill) policy does not fail at a subtraction: it first copies the integer
positional index into the window_start column and only then raises, at the
addition of the duration to the integer index. -/
theorem set_window_fresh_ffill_cex :
    ((set_window 60000000000 ffill
        ⟨false, [⟨100, 0, 100, none⟩, ⟨200, 0, 200, none⟩], none, none⟩).2
      = some PdError.cannotAdd) ∧
    (some PdError.cannotAdd ≠ some PdError.cannotSubtract) ∧
    ((set_window 60000000000 ffill
        ⟨false, [⟨100, 0, 100, none⟩, ⟨200, 0, 200, none⟩], none, none⟩).1.window_start
      = some [WinVal.pos 0, WinVal.pos 1]) := by
  decide

/-- C10 amended: set_window needs drop_EB to have re-keyed the table: on a
freshly parsed record set (positional integer index) every recognized
policy raises a TypeError and produces no timestamp-based windows — bffill
and bfill fail when subtracting the duration from the integer index before
any column is written, while ffill first copies the integer index into
window_start and then fails when adding the duration. -/
theorem set_window_fresh_fails (d : Int) (st : SLState)
    (h : st.tsIndexed = false) :
    (set_window d bffill st = (st, some PdError.cannotSubtract)) ∧
    (set_window d bfill st = (st, some PdError.cannotSubtract)) ∧
    (set_window d ffill st =
      ({ st with
          window_start :=
            some ((List.range st.rows.length).map (fun n => WinVal.pos (Int.ofNat n))) },
       some PdError.cannotAdd)) := by
  refine ⟨?_, ?_, ?_⟩ <;>
    simp [set_window, idxSubTd, idxAddTd, idxAsCol, h, bffill, bfill, ffill]

/-- Witness for C10 amended on a concrete freshly parsed one-row table. -/
theorem set_window_fresh_fails_witness :
    (set_window 60000000000 bffill ⟨false, [⟨7, 0, 7, none⟩], none, none⟩
      = (⟨false, [⟨7, 0, 7, none⟩], none, none⟩, some PdError.cannotSubtract)) ∧
    (set_window 60000000000 bfill ⟨false, [⟨7, 0, 7, none⟩], none, none⟩
      = (⟨false, [⟨7, 0, 7, none⟩], none, none⟩, some PdError.cannotSubtract)) ∧
    (set_window 60000000000 ffill ⟨false, [⟨7, 0, 7, none⟩], none, none⟩
      = ({ (⟨false, [⟨7, 0, 7, none⟩], none, none⟩ : SLState) with
            window_start :=
              some ((List.range (1 : Nat)).map (fun n => WinVal.pos (Int.ofNat n))) },
         some PdError.cannotAdd)) :=
  set_window_fresh_fails 60000000000 ⟨false, [⟨7, 0, 7, none⟩], none, none⟩ rfl

theorem roundMin_emod (t : Int) : roundMin t % nsPerMin = 0 := by
  simp only [roundMin, roundHalfEvenTo, nsPerMin]
  split_ifs <;> omega

theorem roundMin_eq_self (t : Int) (h : t % nsPerMin = 0) : roundMin t = t := by
  simp only [roundMin, roundHalfEvenTo, nsPerMin] at h ⊢
  split_ifs <;> omega

theorem roundMin_add_roundMin (d1 d2 : Int) :
    roundMin (roundMin d1 + roundMin d2) = roundMin d1 + roundMin d2 := by
  apply roundMin_eq_self
  have h1 := roundMin_emod d1
  have h2 := roundMin_emod d2
  simp only [nsPerMin] at h1 h2 ⊢
  omega

theorem shiftRow_shiftRow (a b : Int) (r : SLRow) :
    shiftRow b (shiftRow a r) = shiftRow (a + b) r := by
  simp [shiftRow, Int.add_assoc]

theorem Signal.shift_shift (a b : Int) (s : Signal) :
    Signal.shift b (Signal.shift a s) = Signal.shift (a + b) s := by
  simp [Signal.shift, List.map_map, Function.comp, Int.add_assoc]

theorem Joined.shiftIdx_shiftIdx (a b : Int) (j : Joined) :
    Joined.shiftIdx b (Joined.shiftIdx a j) = Joined.shiftIdx (a + b) j := by
  simp [Joined.shiftIdx, List.map_map, Function.comp, Int.add_assoc]

theorem Signal.shift_comp (a b : Int) :
    Signal.shift b ∘ Signal.shift a = Signal.shift (a + b) :=
  funext (Signal.shift_shift a b)

theorem Joined.shiftIdx_comp (a b : Int) :
    Joined.shiftIdx b ∘ Joined.shiftIdx a = Joined.shiftIdx (a + b) :=
  funext (Joined.shiftIdx_shiftIdx a b)

/-- C2 evidence at the failing input: one IBI entry at timestamp 1000 with
start time 900; a relative shift of one hour moves the recorded IBI start
time but leaves the IBI entry timestamp at 1000, because the IBI dataframe
is missing from the `variables` list of `timeshift`. -/
theorem relative_shift_skips_ibi :
    ((emp_timeshift_td 3600000000000
        ⟨[(SigName.IBI, 900)], none, none, none, none, none, none,
         some ⟨[(1000, [5])]⟩, none⟩).IBI
      = some ⟨[(1000, [5])]⟩) ∧
    ((emp_timeshift_td 3600000000000
        ⟨[(SigName.IBI, 900)], none, none, none, none, none, none,
         some ⟨[(1000, [5])]⟩, none⟩).start_times
      = [(SigName.IBI, 3600000000900)]) := by
  decide

/-- C8 counterexample: on the ambulatory reader, shifting by 40 s twice
lands one minute later than shifting by 80 s once, because each call
rounds its own shift to whole minutes (round(40 s) = 60 s twice, versus
round(80 s) = 60 s once). -/
theorem relative_shift_compose_cex :
    ((sl_timeshift_td 40000000000 (sl_timeshift_td 40000000000
        ⟨true, [⟨0, 0, 0, none⟩], none, none⟩)).timestamps = [120000000000]) ∧
    ((sl_timeshift_td 80000000000
        ⟨true, [⟨0, 0, 0, none⟩], none, none⟩).timestamps = [60000000000]) ∧
    (([120000000000] : List Int) ≠ [60000000000]) := by
  decide

/-- C8 amended: relative timeshifts compose additively on the Empatica
reader; on the ambulatory reader each call first rounds its own shift to
whole minutes, so applying d1 then d2 equals the single exact shift by
round(d1) + round(d2) — which differs from applying d1 + d2 once whenever
round(d1) + round(d2) is not round(d1 + d2). -/
theorem relative_shift_compose :
    (∀ (r : EmpaticaReader) (d1 d2 : Int),
      emp_timeshift_td d2 (emp_timeshift_td d1 r) =
        emp_timeshift_td (d1 + d2) r) ∧
    (∀ (st : SLState) (d1 d2 : Int),
      sl_timeshift_td d2 (sl_timeshift_td d1 st) =
        sl_timeshift_td (roundMin d1 + roundMin d2) st) := by
  constructor
  · intro r d1 d2
    cases r with
    | mk sts tg acc bvp eda hr temp ibi dat =>
      simp [emp_timeshift_td, Option.map_map, List.map_map, Function.comp,
        Signal.shift_comp, Joined.shiftIdx_comp, Signal.shift_shift,
        Joined.shiftIdx_shiftIdx, Int.add_assoc]
  · intro st d1 d2
    simp [sl_timeshift_td, List.map_map, Function.comp,
      roundMin_add_roundMin, shiftRow_shiftRow]

theorem listMin_foldl_add (c : Int) (xs : List Int) : ∀ a : Int,
    (xs.map (fun t => c + t)).foldl min (c + a) = c + xs.foldl min a := by
  induction xs with
  | nil => intro a; rfl
  | cons x xs ih =>
    intro a
    simp only [List.map_cons, List.foldl_cons]
    rw [min_add_add_left]
    exact ih (min a x)

theorem listMin_map_add (c : Int) (l : List Int) (h : l ≠ []) :
    listMin (l.map (fun t => c + t)) = c + listMin l := by
  cases l with
  | nil => exact absurd rfl h
  | cons x xs =>
    simp only [List.map_cons, listMin]
    exact listMin_foldl_add c xs x

theorem anchorIdx_eq_map (A : Int) (idx : List Int) :
    anchorIdx A idx = idx.map (fun t => (A - listMin idx) + t) := by
  rw [anchorIdx,
    show (fun t => A + (t - listMin idx)) = (fun t => (A - listMin idx) + t)
      from funext (fun t => by ring)]

theorem listMin_anchorIdx (A : Int) (idx : List Int) (h : idx ≠ []) :
    listMin (anchorIdx A idx) = A := by
  rw [anchorIdx_eq_map, listMin_map_add _ _ h]
  ring

/-- C1 counterexample: two signals whose earliest samples are 10 ns apart
are each anchored to their own minimum, so after the anchored shift both
start at the target 100 and the cross-signal difference collapses from 10
to 0 — no single global minimum is used and cross-structure differences
are not preserved. -/
theorem anchored_shift_cross_structure_cex :
    ((emp_timeshift_ts 100
        ⟨[(SigName.ACC, 0), (SigName.BVP, 10)], none, some ⟨[(0, [1])]⟩,
         some ⟨[(10, [2])]⟩, none, none, none, none, none⟩).ACC.map Signal.index
      = some [100]) ∧
    ((emp_timeshift_ts 100
        ⟨[(SigName.ACC, 0), (SigName.BVP, 10)], none, some ⟨[(0, [1])]⟩,
         some ⟨[(10, [2])]⟩, none, none, none, none, none⟩).BVP.map Signal.index
      = some [100]) ∧
    ((10 : Int) - 0 ≠ 100 - 100) := by
  decide

/-- C1 amended: the anchored mode re-anchors every structure independently
at its own minimum — each dataframe, the tag series and the start-time
dictionary are mapped through t ↦ A + (t − min of that same structure), so
the minimum of each shifted structure is A and pairwise differences are
preserved within a structure (for the ambulatory reader the single table
is translated so that its first timestamp lands on A rounded to whole
minutes); differences between different structures are not preserved, and
the Empatica IBI dataframe is not shifted at all. -/
theorem anchored_shift_per_structure :
    (∀ (A : Int) (idx : List Int), idx ≠ [] → listMin (anchorIdx A idx) = A) ∧
    (∀ (A : Int) (idx : List Int) (i j : Nat) (a b x y : Int),
      (anchorIdx A idx)[i]? = some a → (anchorIdx A idx)[j]? = some b →
      idx[i]? = some x → idx[j]? = some y → a - b = x - y) ∧
    (∀ (A : Int) (s : Signal),
      (Signal.anchor A s).index = anchorIdx A s.index) ∧
    (∀ (A : Int) (st : SLState) (i : Nat) (a b : Int),
      (sl_timeshift_ts A st).timestamps[i]? = some a →
      st.timestamps[i]? = some b →
      a = roundMin A + (b - st.timestamps.headD 0)) ∧
    (∀ (A : Int) (r : EmpaticaReader),
      (emp_timeshift_ts A r).ACC = r.ACC.map (Signal.anchor A) ∧
      (emp_timeshift_ts A r).BVP = r.BVP.map (Signal.anchor A) ∧
      (emp_timeshift_ts A r).EDA = r.EDA.map (Signal.anchor A) ∧
      (emp_timeshift_ts A r).HR = r.HR.map (Signal.anchor A) ∧
      (emp_timeshift_ts A r).TEMP = r.TEMP.map (Signal.anchor A) ∧
      (emp_timeshift_ts A r).tags = r.tags.map (anchorIdx A) ∧
      (emp_timeshift_ts A r).start_times.map Prod.snd =
        anchorIdx A (r.start_times.map Prod.snd) ∧
      (emp_timeshift_ts A r).IBI = r.IBI) := by
  refine ⟨listMin_anchorIdx, ?_, ?_, ?_, ?_⟩
  · intro A idx i j a b x y ha hb hx hy
    simp only [anchorIdx, List.getElem?_map, hx, hy, Option.map_some',
      Option.some.injEq] at ha hb
    omega
  · intro A s
    simp [Signal.anchor, Signal.index, anchorIdx, List.map_map, Function.comp]
  · intro A st i a b ha hb
    simp only [sl_timeshift_ts, SLState.timestamps, List.map_map,
      List.getElem?_map, Function.comp] at ha hb
    cases hrow : st.rows[i]? with
    | none => rw [hrow] at ha; simp at ha
    | some r =>
      rw [hrow] at ha hb
      simp only [Option.map_some', Option.some.injEq, Function.comp,
        shiftRow] at ha hb
      simp only [SLState.timestamps]
      omega
  · intro A r
    refine ⟨rfl, rfl, rfl, rfl, rfl, rfl, ?_, rfl⟩
    simp [emp_timeshift_ts, anchorIdx, List.map_map, Function.comp]

/-- Witness for C1 amended: anchoring [7, 9] at 5 yields minimum 5 and
preserves the within-structure difference. -/
theorem anchored_shift_per_structure_witness :
    (listMin (anchorIdx 5 [7, 9]) = 5) ∧ ((5 : Int) - 7 = 7 - 9) :=
  ⟨anchored_shift_per_structure.1 5 [7, 9] (by decide),
   anchored_shift_per_structure.2.1 5 [7, 9] 0 1 5 7 7 9 (by decide)
     (by decide) (by decide) (by decide)⟩

theorem updCol_map (t : Int) (v : List Int) (idx : List Int) :
    ∀ g : Int → Option (List Int),
      updCol idx (idx.map g) t v =
        idx.map (fun x => if x = t then some v else g x) := by
  induction idx with
  | nil => intro g; rfl
  | cons a l ih =>
    intro g
    simp only [updCol, List.map_cons, List.zipWith_cons_cons]
    have h := ih g
    simp only [updCol] at h
    rw [h]

theorem scatterCol_foldl (idx : List Int) :
    ∀ (rows : List (Int × List Int)) (g : Int → Option (List Int)),
      rows.foldl (fun col q => updCol idx col q.1 q.2) (idx.map g) =
        idx.map (fun x =>
          rows.foldl (fun acc q => if x = q.1 then some q.2 else acc) (g x)) := by
  intro rows
  induction rows with
  | nil => intro g; rfl
  | cons q rows ih =>
    intro g
    simp only [List.foldl_cons]
    rw [updCol_map q.1 q.2 idx g, ih]

theorem scatterCol_eq (idx : List Int) (s : Signal) :
    scatterCol idx s = idx.map (lastMatch s.rows) := by
  have h := scatterCol_foldl idx s.rows (fun _ => none)
  simpa [scatterCol, lastMatch] using h

theorem foldl_match_of_not_mem (x : Int) :
    ∀ (rows : List (Int × List Int)) (acc : Option (List Int)),
      x ∉ rows.map Prod.fst →
      rows.foldl (fun a q => if x = q.1 then some q.2 else a) acc = acc := by
  intro rows
  induction rows with
  | nil => intro acc _; rfl
  | cons q rows ih =>
    intro acc h
    simp only [List.map_cons, List.mem_cons, not_or] at h
    simp only [List.foldl_cons, if_neg h.1]
    exact ih acc h.2

theorem lastMatch_eq_none (rows : List (Int × List Int)) (x : Int)
    (h : x ∉ rows.map Prod.fst) : lastMatch rows x = none :=
  foldl_match_of_not_mem x rows none h

theorem foldl_match_of_mem (x : Int) (v : List Int) :
    ∀ (rows : List (Int × List Int)) (acc : Option (List Int)),
      (rows.map Prod.fst).Nodup → (x, v) ∈ rows →
      rows.foldl (fun a q => if x = q.1 then some q.2 else a) acc = some v := by
  intro rows
  induction rows with
  | nil => intro acc _ hm; cases hm
  | cons q rows ih =>
    intro acc hnd hm
    simp only [List.map_cons, List.nodup_cons] at hnd
    rcases List.mem_cons.mp hm with h | h
    · rw [List.foldl_cons]
      have hq : x = q.1 ∧ v = q.2 := by
        rw [← h]
        exact ⟨rfl, rfl⟩
      rw [if_pos hq.1]
      have hx : x ∉ rows.map Prod.fst := hq.1 ▸ hnd.1
      rw [foldl_match_of_not_mem x rows _ hx, hq.2]
    · rw [List.foldl_cons]
      exact ih _ hnd.2 h

theorem lastMatch_eq_some (rows : List (Int × List Int)) (x : Int)
    (v : List Int) (hnd : (rows.map Prod.fst).Nodup) (hm : (x, v) ∈ rows) :
    lastMatch rows x = some v :=
  foldl_match_of_mem x v rows none hnd hm

theorem mem_dedupSort (t : Int) (l : List Int) : t ∈ dedupSort l ↔ t ∈ l := by
  rw [dedupSort, (List.perm_insertionSort _ l.dedup).mem_iff, List.mem_dedup]

theorem sorted_dedupSort (l : List Int) :
    (dedupSort l).Sorted (fun a b => a ≤ b) :=
  List.sorted_insertionSort _ _

theorem nodup_dedupSort (l : List Int) : (dedupSort l).Nodup :=
  (List.perm_insertionSort _ l.dedup).symm.nodup (List.nodup_dedup l)

theorem mem_allTimestamps (t : Int) (ss : List Signal) :
    t ∈ allTimestamps ss ↔ ∃ s ∈ ss, t ∈ s.index := by
  simp [allTimestamps, List.mem_flatten]

theorem get_joined_eq_none_iff (r : EmpaticaReader) :
    get_joined r = none ↔ contributing r = [] := by
  rw [get_joined]
  split_ifs with h <;> simp [h]

theorem get_joined_some (r : EmpaticaReader) (J : Joined)
    (h : get_joined r = some J) :
    J.idx = dedupSort (allTimestamps ((contributing r).map Prod.snd)) ∧
    J.cols = (contributing r).map (fun p => (p.1, scatterCol J.idx p.2)) := by
  rw [get_joined] at h
  split_ifs at h with hc
  · simp only [Option.some.injEq] at h
    subst h
    exact ⟨rfl, rfl⟩

/-- C9: the joined table is keyed by the sorted, de-duplicated union of
the contributing signals' timestamps; a cell holds exactly the owning
signal's value where that signal had a sample at that very timestamp and
is missing everywhere else; the join is absent exactly when no signal
contributes. -/
theorem joined_table_fidelity :
    (∀ r : EmpaticaReader, get_joined r = none ↔ contributing r = []) ∧
    (∀ (r : EmpaticaReader) (J : Joined), get_joined r = some J →
      (∀ t : Int, t ∈ J.idx ↔ ∃ p ∈ contributing r, t ∈ p.2.index) ∧
      J.idx.Sorted (fun a b => a ≤ b) ∧
      J.idx.Nodup ∧
      J.cols = (contributing r).map (fun p => (p.1, scatterCol J.idx p.2)) ∧
      (∀ p ∈ contributing r, p.2.index.Nodup →
        ∀ (i : Nat) (t : Int), J.idx[i]? = some t →
          (∀ v : List Int, (t, v) ∈ p.2.rows →
            (scatterCol J.idx p.2)[i]? = some (some v)) ∧
          (t ∉ p.2.index → (scatterCol J.idx p.2)[i]? = some none))) := by
  refine ⟨get_joined_eq_none_iff, ?_⟩
  intro r J h
  obtain ⟨hidx, hcols⟩ := get_joined_some r J h
  refine ⟨?_, ?_, ?_, hcols, ?_⟩
  · intro t
    rw [hidx, mem_dedupSort, mem_allTimestamps]
    constructor
    · rintro ⟨s, hs, hts⟩
      obtain ⟨p, hp, rfl⟩ := List.mem_map.mp hs
      exact ⟨p, hp, hts⟩
    · rintro ⟨p, hp, hts⟩
      exact ⟨p.2, List.mem_map.mpr ⟨p, hp, rfl⟩, hts⟩
  · rw [hidx]; exact sorted_dedupSort _
  · rw [hidx]; exact nodup_dedupSort _
  · intro p _ hnd i t hit
    rw [scatterCol_eq, List.getElem?_map, hit, Option.map_some']
    constructor
    · intro v hv
      rw [lastMatch_eq_some p.2.rows t v hnd hv]
    · intro hni
      rw [lastMatch_eq_none p.2.rows t hni]

/-- Witness for C9 on `readerExample`: the join is present, its index is
the sorted union 0, 1, 2, and the ACC column holds the original sample at
its own timestamps and a missing cell where only BVP sampled. -/
theorem joined_table_fidelity_witness :
    ((scatterCol joinedExample.idx sigAccExample)[0]? = some (some [1, 2, 3])) ∧
    ((scatterCol joinedExample.idx sigAccExample)[1]? = some none) := by
  have hcell :=
    ((joined_table_fidelity.2 readerExample joinedExample (by decide)).2.2.2.2)
      (SigName.ACC, sigAccExample) (by decide) (by decide)
  exact ⟨(hcell 0 0 (by decide)).1 [1, 2, 3] (by decide),
         (hcell 1 1 (by decide)).2 (by decide)⟩

end Devicely
